import Mathlib

/- Shallow embedding of the UNESCO scraper (side-quest-web-scraping).
The core variant is src/unnamed/part_001; the lenient summarizer variant is
src/unnamed/part_000 and src/script.js.  JS strings are modelled as Lean
strings (or their character lists), the JS undefined value as `none`, JS
numbers that may be NaN as `Option ℚ` with `none` for NaN, and a thrown JS
exception as `Except.error`. -/

/-- Characters removed by JS String.prototype.trim (ASCII whitespace part). -/
def isWS (c : Char) : Bool :=
  c == ' ' || c == '\t' || c == '\n' || c == '\r'

/-- Model of JS String.prototype.trim on the character list of a string. -/
def trimChars (cs : List Char) : List Char :=
  ((cs.dropWhile isWS).reverse.dropWhile isWS).reverse

/-- Model of JS String.prototype.split against a character-class separator
(e.g. the regex N|S): every matching character is a delimiter, adjacent
delimiters produce empty fields, and the result is never empty. -/
def splitOnPred (p : Char → Bool) : List Char → List (List Char)
  | [] => [[]]
  | c :: cs =>
    match splitOnPred p cs with
    | [] => [[]]
    | t :: ts => if p c then [] :: t :: ts else (c :: t) :: ts

/-- Model of JS String.prototype.split with a one-character plain separator. -/
def splitOnChar (sep : Char) : List Char → List (List Char) :=
  splitOnPred (fun c => c == sep)

/-- Natural value of a digit list, most significant digit first. -/
def digitsVal (ds : List Char) : Nat :=
  ds.foldl (fun a c => 10 * a + (c.toNat - 48)) 0

/-- Value of a fractional digit list, read after the decimal point. -/
def fracVal (ds : List Char) : ℚ :=
  (digitsVal ds : ℚ) / (10 : ℚ) ^ ds.length

/-- Longest-prefix decimal parse: digits with an optional decimal point,
at least one digit required, trailing garbage ignored (as JS parseFloat). -/
def parseUnsigned (cs : List Char) : Option ℚ :=
  let ip := cs.takeWhile Char.isDigit
  let rest := cs.dropWhile Char.isDigit
  match rest with
  | '.' :: rest2 =>
    let fp := rest2.takeWhile Char.isDigit
    if ip.isEmpty && fp.isEmpty then none
    else some ((digitsVal ip : ℚ) + fracVal fp)
  | _ => if ip.isEmpty then none else some ((digitsVal ip : ℚ))

/-- Model of JS Number.parseFloat applied to a value that is either a string
or undefined (`none`).  The result `none` is NaN.  Exponent suffixes and
Infinity, which never occur in this program's inputs, are not modelled. -/
def parseFloatJS : Option (List Char) → Option ℚ
  | none => none
  | some cs =>
    let cs := cs.dropWhile isWS
    match cs with
    | '-' :: r => (parseUnsigned r).map (fun q => -q)
    | '+' :: r => parseUnsigned r
    | _ => parseUnsigned cs

/-- A JS number that may be NaN: `none` is NaN. -/
abbrev JsNum := Option ℚ

/-- JS addition with NaN propagation. -/
def jsAdd : JsNum → JsNum → JsNum
  | some a, some b => some (a + b)
  | _, _ => none

/-- JS division by a nonzero numeric constant, with NaN propagation. -/
def jsDivConst (x : JsNum) (d : ℚ) : JsNum :=
  x.map (fun a => a / d)

/-- JS multiplication by -1, with NaN propagation. -/
def jsNeg (x : JsNum) : JsNum :=
  x.map (fun a => -a)

/-- The only exception dmsToDD can raise: a property access on undefined. -/
inductive JsError
  | typeError
deriving DecidableEq, Repr

deriving instance DecidableEq for Except

/-- Separator class of the regex N|S used for the latitude degree token. -/
def isNS (c : Char) : Bool := c == 'N' || c == 'S'

/-- Separator class of the regex E|W used for the longitude degree token. -/
def isEW (c : Char) : Bool := c == 'E' || c == 'W'

/-- The nested toDD helper of dmsToDD (src/unnamed/part_001 lines 86-88):
parseFloat(deg) + parseFloat(min)/60 + parseFloat(sec)/3600. -/
def toDD (deg mn sec : Option (List Char)) : JsNum :=
  jsAdd (jsAdd (parseFloatJS deg) (jsDivConst (parseFloatJS mn) 60))
    (jsDivConst (parseFloatJS sec) 3600)

/-- Body of dmsToDD (src/unnamed/part_001 lines 85-103) on the character
list of the input string.  The two error branches are the JS expressions
partsLat[0].split and partsLong[0].split, which throw a TypeError when the
indexed element is undefined; all other steps are total. -/
def dmsCore (cs : List Char) : Except JsError (JsNum × JsNum) :=
  if cs = [] then Except.ok (none, none)
  else
    let parts := splitOnChar ' ' cs
    let partsLat := parts.take 3
    let partsLong := parts.drop 3
    match partsLat[0]? with
    | none => Except.error JsError.typeError
    | some p0 =>
      let latDeg := ((splitOnPred isNS p0).take 2)[1]?
      let lat := toDD latDeg partsLat[1]? partsLat[2]?
      let lat := if p0.head? = some 'S' then jsNeg lat else lat
      match partsLong[0]? with
      | none => Except.error JsError.typeError
      | some q0 =>
        let longDeg := ((splitOnPred isEW q0).take 2)[1]?
        let long := toDD longDeg partsLong[1]? partsLong[2]?
        let long := if q0.head? = some 'W' then jsNeg long else long
        Except.ok (lat, long)

/-- dmsToDD of src/unnamed/part_001: converts a DMS string such as
"N34 23 47.1 E64 30 57.2" to decimal latitude and longitude, returning
`none` components for NaN and `Except.error` for a thrown exception. -/
def dmsToDD (dms : String) : Except JsError (JsNum × JsNum) :=
  dmsCore dms.data

/-- Outcome of the external summarization call: `failure` is a rejected
request (network error or non-success response, the axios throw), `success`
carries the response's optional output text field. -/
inductive GeminiResult
  | failure
  | success (output : Option String)
deriving DecidableEq, Repr

/-- The local fallback summary used by the summarizer variants of
src/unnamed/part_000 line 60/64 and src/script.js lines 250/270:
longText.split(".").slice(0, 2).join(". ") + ".". -/
def fallbackSummary (longText : String) : String :=
  String.mk (List.intercalate ". ".data ((splitOnChar '.' longText.data).take 2) ++ ".".data)

/-- True when the external summarization call failed in one of the three
spec-listed ways: network error or non-success response (a throw), a missing
output field, or an output field that is empty after trimming. -/
def externalFailed : GeminiResult → Bool
  | GeminiResult.failure => true
  | GeminiResult.success none => true
  | GeminiResult.success (some o) => trimChars o.data == []

/-- summarizeText of the lenient variant (src/unnamed/part_000 lines 34-66),
with the outcome of the external call passed in explicitly.  Returns the
input unchanged (or a placeholder when empty) below 20 trimmed characters,
the trimmed response text on success, and the local fallback otherwise. -/
def summarizeText (res : GeminiResult) (longText : String) : String :=
  if longText = "" ∨ (trimChars longText.data).length < 20 then
    if longText = "" then "No description available." else longText
  else
    match res with
    | GeminiResult.failure => fallbackSummary longText
    | GeminiResult.success output =>
      match output with
      | none => fallbackSummary longText
      | some o =>
        let t := String.mk (trimChars o.data)
        if t = "" then fallbackSummary longText else t

/-- summarizeText of the core variant (src/unnamed/part_001 lines 48-68),
which calls process.exit(1) when the external request throws; the exit is
modelled as `Except.error` with the exit code. -/
def summarizeTextStrict (res : GeminiResult) (longText : String) : Except Nat String :=
  if longText = "" ∨ (trimChars longText.data).length < 20 then
    Except.ok (if longText = "" then "No description available." else longText)
  else
    match res with
    | GeminiResult.failure => Except.error 1
    | GeminiResult.success output =>
      match output with
      | none => Except.ok (fallbackSummary longText)
      | some o =>
        let t := String.mk (trimChars o.data)
        Except.ok (if t = "" then fallbackSummary longText else t)

/-- Result of a gotoWithRetries call: whether it returned without throwing,
how many times page.goto was invoked, and the list of backoff sleeps in
milliseconds (each sleep in the source is the constant 2000). -/
structure GotoResult where
  ok : Bool
  attempts : Nat
  sleeps : List Nat
deriving DecidableEq, Repr

/-- Loop of gotoWithRetries (src/unnamed/part_001 lines 71-82).  `nav i`
tells whether the i-th page.goto attempt succeeds; `tried` and `sleeps`
accumulate the observable behaviour.  The loop counter and bound are JS
numbers, modelled as integers so that non-positive bounds are expressible. -/
def gotoAux (nav : Int → Bool) (maxRetries : Int) :
    Nat → Int → Nat → List Nat → GotoResult
  | 0, _, tried, sleeps => ⟨true, tried, sleeps⟩
  | rem + 1, attempts, tried, sleeps =>
    if nav attempts then ⟨true, tried + 1, sleeps⟩
    else if attempts + 1 = maxRetries then ⟨false, tried + 1, sleeps⟩
    else gotoAux nav maxRetries rem (attempts + 1) (tried + 1) (sleeps ++ [2000])

/-- gotoWithRetries of src/unnamed/part_001 lines 71-82, with the browser
navigation abstracted to the success predicate `nav` per attempt index.
The loop condition attempts < maxRetries is realized by counting the
remaining iterations (maxRetries - attempts).toNat down structurally. -/
def gotoWithRetries (nav : Int → Bool) (maxRetries : Int) : GotoResult :=
  gotoAux nav maxRetries maxRetries.toNat 0 0 []

/-- Raw field bundle extracted in the page by sitePage.evaluate
(src/unnamed/part_001 lines 191-210). -/
structure SiteData where
  title : String
  descriptionFull : String
  coordsText : String
  images : List String
deriving DecidableEq, Repr

/-- The persisted record shape of src/unnamed/part_001 lines 228-238. -/
structure EntityRecord where
  title : String
  aura : Nat
  category : String
  description : String
  latitude : JsNum
  longitude : JsNum
  price : String
  images : List String
  link : String
deriving DecidableEq, Repr

/-- External behaviour of one per-site iteration: either navigation or the
in-page evaluation raised (`throwDuring`), or extraction produced a raw
field bundle together with the external summarizer outcome. -/
inductive SiteOutcome
  | throwDuring (msg : String)
  | data (sd : SiteData) (gem : GeminiResult)
deriving DecidableEq, Repr

/-- How one per-site iteration ends before state is threaded: a process
exit, a persisted record, or a caught error logged as a warning. -/
inductive StepKind
  | exit (code : Nat)
  | record (r : EntityRecord)
  | warn (msg : String)
deriving DecidableEq, Repr

/-- Warning text of the per-site catch (src/unnamed/part_001 line 245). -/
def warnMsg (url msg : String) : String :=
  "Failed to scrape " ++ url ++ ": " ++ msg

/-- Deterministic core of one iteration of the main loop's try block
(src/unnamed/part_001 lines 163-246): a throw is caught as a warning;
missing title or description calls process.exit(1); dmsToDD may throw
(caught as a warning); the strict summarizer may call process.exit. -/
def siteStep (url : String) (oc : SiteOutcome) : StepKind :=
  match oc with
  | SiteOutcome.throwDuring msg => StepKind.warn (warnMsg url msg)
  | SiteOutcome.data sd gem =>
    if sd.title = "" ∨ sd.descriptionFull = "" then StepKind.exit 1
    else
      match dmsToDD sd.coordsText with
      | Except.error _ => StepKind.warn (warnMsg url "TypeError")
      | Except.ok (lat, long) =>
        match summarizeTextStrict gem sd.descriptionFull with
        | Except.error code => StepKind.exit code
        | Except.ok summary =>
          StepKind.record
            { title := sd.title, aura := 400, category := "historic",
              description := summary, latitude := lat, longitude := long,
              price := "N/A", images := sd.images, link := url }

/-- Observable state of one run: the addresses that entered the per-site
try block, the records written to the store, and the logged warnings. -/
structure RunState where
  processed : List String
  persisted : List EntityRecord
  warnings : List String
deriving DecidableEq, Repr

/-- State at the start of a run. -/
def initState : RunState := ⟨[], [], []⟩

/-- Threads one step outcome through the run state; a process exit carries
its code out as `Except.error`. -/
def applyStep (st : RunState) (k : StepKind) : Except Nat RunState :=
  match k with
  | StepKind.exit c => Except.error c
  | StepKind.record r => Except.ok { st with persisted := st.persisted ++ [r] }
  | StepKind.warn m => Except.ok { st with warnings := st.warnings ++ [m] }

/-- The per-entity loop of src/unnamed/part_001 lines 154-247: each url
already in the scraped set is skipped, every other url is processed by
siteStep, and a process exit aborts the remaining iterations. -/
def mainLoop (oracle : String → SiteOutcome) (scraped : List String) :
    List String → RunState → Except Nat RunState
  | [], st => Except.ok st
  | url :: rest, st =>
    if url ∈ scraped then mainLoop oracle scraped rest st
    else
      match applyStep { st with processed := st.processed ++ [url] }
          (siteStep url (oracle url)) with
      | Except.error c => Except.error c
      | Except.ok st2 => mainLoop oracle scraped rest st2

/-- Insertion into the JS Set of already scraped links: membership-free
append, preserving first-insertion order. -/
def setAdd (acc : List String) (x : String) : List String :=
  if x ∈ acc then acc else acc ++ [x]

/-- One iteration of the resume-filter loop (src/unnamed/part_001 lines
115-119): split the line on commas, take the last field, trim it, and add
it to the set when non-empty. -/
def addLine (acc : List String) (line : List Char) : List String :=
  match (splitOnChar ',' line).getLast? with
  | none => acc
  | some lastCol =>
    let link := String.mk (trimChars lastCol)
    if link = "" then acc else setAdd acc link

/-- The scrapedLinks set of src/unnamed/part_001 lines 111-120, built from
the raw text of the existing output store: split into lines, skip the
header line, collect the trimmed last column of every remaining line. -/
def scrapedLinksChars (rawData : List Char) : List String :=
  ((splitOnChar '\n' rawData).drop 1).foldl addLine []

/-- scrapedLinks from an optional store file: a missing file leaves the
set empty (fs.existsSync is false, src/unnamed/part_001 line 112). -/
def scrapedLinksOf (store : Option String) : List String :=
  match store with
  | none => []
  | some rawData => scrapedLinksChars rawData.data

/-- scrapedLinks over optional raw store contents as character lists. -/
def scrapedLinksOpt (store : Option (List Char)) : List String :=
  match store with
  | none => []
  | some rawData => scrapedLinksChars rawData

/-- Printed form of a possibly-NaN numeric CSV field. -/
def jsNumField : JsNum → String
  | none => "NaN"
  | some q => toString q

/-- Modelled from the spec: the csv-writer library that serializes records
is an external dependency, absent from src/.  Following section 6 of the
spec, a record row is its nine fields joined by the comma delimiter with
the resume key (the link) as the last column. -/
def csvRow (r : EntityRecord) : List Char :=
  r.title.data ++ [','] ++ (toString r.aura).data ++ [','] ++ r.category.data ++ [','] ++
    r.description.data ++ [','] ++ (jsNumField r.latitude).data ++ [','] ++
    (jsNumField r.longitude).data ++ [','] ++ r.price.data ++ [','] ++
    (List.intercalate [','] (r.images.map String.data)) ++ [','] ++ r.link.data

/-- The fixed header row of the output store (src/unnamed/part_001 lines
31-45). -/
def headerRow : List Char :=
  "Title,Aura,Category,Description,Latitude,Longitude,Price,Images,Link".data

/-- Modelled from the spec: csvWriter.writeRecords with append mode, whose
implementation lives in the external csv-writer library.  Following
sections 4.7 and 6 of the spec, the first write to an absent store creates
it with the header row, and every write appends one row per record on its
own line without rewriting the header. -/
def writeRecords (store : Option (List Char)) (recs : List EntityRecord) : List Char :=
  (match store with
   | none => headerRow
   | some s => s) ++ (recs.map (fun r => '\n' :: csvRow r)).flatten

/-- Store contents after the incremental writer has appended the given
records one call at a time, as the orchestrator does after each site. -/
def storeAfter (store : Option (List Char)) (recs : List EntityRecord) : Option (List Char) :=
  recs.foldl (fun s r => some (writeRecords s [r])) store

/-- Store contents after a sequence of writeRecords batches starting from
an absent store. -/
def runWriter (batches : List (List EntityRecord)) : Option (List Char) :=
  batches.foldl (fun s recs => some (writeRecords s recs)) none

/-- The record a step persists, if any. -/
def stepRec : StepKind → Option EntityRecord
  | StepKind.record r => some r
  | _ => none

/-- Whether a step exits the process. -/
def stepIsExit : StepKind → Bool
  | StepKind.exit _ => true
  | _ => false

/-- Link fields that the resume filter can recover from a CSV row: the
link is non-empty, contains no comma, is unchanged by trimming, and its
row contains no newline. -/
def goodLink (r : EntityRecord) : Prop :=
  r.link ≠ "" ∧ ',' ∉ r.link.data ∧ '\n' ∉ csvRow r ∧ trimChars r.link.data = r.link.data

/-- A description long enough for the summarizer, used by the concrete run
scenarios below. -/
def demoDesc : String := "This description is long enough to summarize."

/-- Benign per-site outcome: extraction succeeds with an empty coordinate
text and the external summarizer answers with a fixed summary. -/
def demoOutcome : SiteOutcome :=
  SiteOutcome.data ⟨"T", demoDesc, "", []⟩ (GeminiResult.success (some "A short summary."))

/-- Oracle whose every site extracts successfully. -/
def demoOracle : String → SiteOutcome := fun _ => demoOutcome

/-- Oracle for the isolation scenario: the second address raises during
extraction, the others extract successfully. -/
def demoOracle5 : String → SiteOutcome :=
  fun u => if u = "u2" then SiteOutcome.throwDuring "boom" else demoOutcome

/-- The record the benign outcome persists for a given address. -/
def demoRecord (u : String) : EntityRecord :=
  { title := "T", aura := 400, category := "historic",
    description := "A short summary.", latitude := none, longitude := none,
    price := "N/A", images := [], link := u }

theorem splitOnPred_ne_nil (p : Char → Bool) (cs : List Char) : splitOnPred p cs ≠ [] := by
  cases cs with
  | nil => simp [splitOnPred]
  | cons c cs =>
    unfold splitOnPred
    cases h : splitOnPred p cs with
    | nil => simp
    | cons t ts => by_cases hc : p c <;> simp [hc]

theorem splitOnPred_no_sep (p : Char → Bool) (cs : List Char)
    (h : ∀ c ∈ cs, p c = false) : splitOnPred p cs = [cs] := by
  induction cs with
  | nil => rfl
  | cons c cs ih =>
    have hc : p c = false := h c (by simp)
    have ih2 := ih (fun x hx => h x (by simp [hx]))
    unfold splitOnPred
    rw [ih2]
    simp [hc]

theorem splitOnPred_append (p : Char → Bool) (xs ys : List Char) (s : Char)
    (hs : p s = true) :
    splitOnPred p (xs ++ s :: ys) = splitOnPred p xs ++ splitOnPred p ys := by
  induction xs with
  | nil =>
    cases h : splitOnPred p ys with
    | nil => exact absurd h (splitOnPred_ne_nil p ys)
    | cons t ts => simp [splitOnPred, hs, h]
  | cons x xs ih =>
    cases h1 : splitOnPred p xs with
    | nil => exact absurd h1 (splitOnPred_ne_nil p xs)
    | cons t ts =>
      by_cases hx : p x <;>
        simp [splitOnPred, List.cons_append, ih, h1, hx]

theorem splitOnChar_ne_nil (sep : Char) (cs : List Char) : splitOnChar sep cs ≠ [] :=
  splitOnPred_ne_nil _ cs

theorem splitOnChar_append (sep : Char) (xs ys : List Char) :
    splitOnChar sep (xs ++ sep :: ys) = splitOnChar sep xs ++ splitOnChar sep ys :=
  splitOnPred_append _ xs ys sep (by simp)

theorem string_empty_of_data_nil {s : String} (h : s.data = []) : s = "" :=
  String.ext h

/-- C2 counterexample: on the malformed single-token input "hello" the
coordinate normalizer does not return the NaN pair; it throws a TypeError
(partsLong[0] is undefined), contradicting the claim that malformed input
never throws and always yields (NaN, NaN). -/
theorem dmsToDD_hello_throws :
    dmsToDD "hello" = Except.error JsError.typeError ∧
      dmsToDD "hello" ≠ Except.ok (none, none) := by
  constructor <;> decide

/-- C2 amended: the coordinate normalizer returns the NaN pair without
throwing for the empty string, and never throws on inputs with at least
four space-separated parts (returning NaN for axes that fail to parse, as
on "a b c d"); but on every non-empty input with fewer than four
space-separated parts it throws a TypeError instead of returning (NaN, NaN). -/
theorem dmsToDD_malformed_behavior :
    dmsToDD "" = Except.ok (none, none) ∧
    (∀ dms : String, dms ≠ "" → (splitOnChar ' ' dms.data).length < 4 →
      dmsToDD dms = Except.error JsError.typeError) ∧
    (∀ dms : String, dms ≠ "" → 4 ≤ (splitOnChar ' ' dms.data).length →
      ∃ la lo, dmsToDD dms = Except.ok (la, lo)) ∧
    dmsToDD "a b c d" = Except.ok (none, none) := by
  refine ⟨by decide, ?_, ?_, by decide⟩
  · intro dms hne hlen
    have hdata : ¬(dms.data = []) := fun h => hne (string_empty_of_data_nil h)
    cases hp : splitOnChar ' ' dms.data with
    | nil => exact absurd hp (splitOnChar_ne_nil ' ' dms.data)
    | cons p0 ps =>
      have hdrop : (p0 :: ps).drop 3 = [] := by
        rw [List.drop_eq_nil_iff]
        rw [hp] at hlen
        omega
      simp [dmsToDD, dmsCore, hdata, hp, hdrop]
  · intro dms hne hlen
    have hdata : ¬(dms.data = []) := fun h => hne (string_empty_of_data_nil h)
    have hlt0 : 0 < (splitOnChar ' ' dms.data).length := by omega
    have hlt3 : 3 < (splitOnChar ' ' dms.data).length := by omega
    have h0 : ((splitOnChar ' ' dms.data).take 3)[0]? =
        some ((splitOnChar ' ' dms.data)[0]) := by
      rw [List.getElem?_take]
      simp [List.getElem?_eq_getElem hlt0]
    have h3 : ((splitOnChar ' ' dms.data).drop 3)[0]? =
        some ((splitOnChar ' ' dms.data)[3]) := by
      rw [List.getElem?_drop]
      simp [List.getElem?_eq_getElem hlt3]
    suffices h : ∃ p, dmsToDD dms = Except.ok p by
      obtain ⟨⟨la, lo⟩, hp2⟩ := h
      exact ⟨la, lo, hp2⟩
    simp only [dmsToDD, dmsCore, if_neg hdata, h0, h3]
    exact ⟨_, rfl⟩

/-- C2 witness: a concrete three-token input throws, and a concrete
four-token input does not. -/
theorem dmsToDD_malformed_witness :
    dmsToDD "x y z" = Except.error JsError.typeError ∧
      ∃ la lo, dmsToDD "N1 2 3 E4 5 6" = Except.ok (la, lo) :=
  ⟨dmsToDD_malformed_behavior.2.1 "x y z" (by decide) (by decide),
   dmsToDD_malformed_behavior.2.2.1 "N1 2 3 E4 5 6" (by decide) (by decide)⟩

theorem gotoAux_first_success (nav : Int → Bool) (m i0 : Int) (hi0 : i0 < m)
    (hnav : nav i0 = true) :
    ∀ (rem : Nat) (a : Int) (t : Nat) (s : List Nat),
      rem = (m - a).toNat → a ≤ i0 →
      (∀ j, a ≤ j → j < i0 → nav j = false) →
      gotoAux nav m rem a t s =
        ⟨true, t + (i0 - a).toNat + 1, s ++ List.replicate (i0 - a).toNat 2000⟩ := by
  intro rem
  induction rem with
  | zero => intro a t s hrem hai hprev; omega
  | succ rem ih =>
    intro a t s hrem hai hprev
    rw [gotoAux]
    by_cases hcase : a = i0
    · subst hcase
      simp [hnav]
    · have hlt : a < i0 := lt_of_le_of_ne hai hcase
      have hnava : nav a = false := hprev a le_rfl hlt
      have hnem : ¬(a + 1 = m) := by omega
      rw [if_neg (by simp [hnava]), if_neg hnem,
        ih (a + 1) (t + 1) (s ++ [2000]) (by omega) (by omega)
          (fun j hj1 hj2 => hprev j (by omega) hj2)]
      have hk : (i0 - a).toNat = (i0 - (a + 1)).toNat + 1 := by omega
      simp [hk, List.replicate_succ, List.append_assoc, GotoResult.mk.injEq]
      omega

theorem gotoAux_all_fail (nav : Int → Bool) (m : Int)
    (hfail : ∀ j, 0 ≤ j → j < m → nav j = false) :
    ∀ (rem : Nat) (a : Int) (t : Nat) (s : List Nat),
      rem = (m - a).toNat → 0 ≤ a → a < m →
      gotoAux nav m rem a t s =
        ⟨false, t + (m - a).toNat, s ++ List.replicate ((m - a).toNat - 1) 2000⟩ := by
  intro rem
  induction rem with
  | zero => intro a t s hrem ha0 ham; omega
  | succ rem ih =>
    intro a t s hrem ha0 ham
    rw [gotoAux]
    have hnava : nav a = false := hfail a ha0 ham
    by_cases hend : a + 1 = m
    · rw [if_neg (by simp [hnava]), if_pos hend]
      have hm1 : (m - a).toNat = 1 := by omega
      simp [hm1]
    · rw [if_neg (by simp [hnava]), if_neg hend,
        ih (a + 1) (t + 1) (s ++ [2000]) (by omega) (by omega) (by omega)]
      have hk : (m - a).toNat = (m - (a + 1)).toNat + 1 := by omega
      obtain ⟨k, hkk⟩ : ∃ k, (m - (a + 1)).toNat = k + 1 :=
        ⟨(m - (a + 1)).toNat - 1, by omega⟩
      rw [hk, hkk]
      simp only [GotoResult.mk.injEq]
      refine ⟨trivial, by omega, ?_⟩
      simp [List.replicate_succ, List.append_assoc]

theorem gotoAux_attempts_le (nav : Int → Bool) (m : Int) :
    ∀ (rem : Nat) (a : Int) (t : Nat) (s : List Nat),
      (gotoAux nav m rem a t s).attempts ≤ t + rem := by
  intro rem
  induction rem with
  | zero => intro a t s; simp [gotoAux]
  | succ rem ih =>
    intro a t s
    rw [gotoAux]
    by_cases hnava : nav a = true
    · simp [hnava]
    · rw [if_neg (by simp [hnava])]
      by_cases hend : a + 1 = m
      · rw [if_pos hend]; simp
      · rw [if_neg hend]
        calc (gotoAux nav m rem (a + 1) (t + 1) (s ++ [2000])).attempts
            ≤ (t + 1) + rem := ih (a + 1) (t + 1) (s ++ [2000])
          _ = t + (rem + 1) := by omega

/-- C6: the retry helper performs at most the configured maximum number of
navigation attempts; when the first successful attempt is attempt i0 it
returns immediately, having slept the fixed 2000 ms between consecutive
attempts; a stub that fails twice then succeeds makes it succeed on the
third attempt after exactly two sleeps; and when every attempt fails the
failure propagates after exactly maxRetries attempts. -/
theorem gotoWithRetries_contract :
    (∀ (nav : Int → Bool) (maxRetries : Int),
      (gotoWithRetries nav maxRetries).attempts ≤ maxRetries.toNat) ∧
    (∀ (nav : Int → Bool) (maxRetries i0 : Int), 0 ≤ i0 → i0 < maxRetries →
      nav i0 = true → (∀ j, 0 ≤ j → j < i0 → nav j = false) →
      gotoWithRetries nav maxRetries =
        ⟨true, i0.toNat + 1, List.replicate i0.toNat 2000⟩) ∧
    (∀ (nav : Int → Bool) (maxRetries : Int), 0 < maxRetries →
      (∀ j, 0 ≤ j → j < maxRetries → nav j = false) →
      gotoWithRetries nav maxRetries =
        ⟨false, maxRetries.toNat, List.replicate (maxRetries.toNat - 1) 2000⟩) ∧
    gotoWithRetries (fun i => decide (2 ≤ i)) 3 = ⟨true, 3, [2000, 2000]⟩ ∧
    gotoWithRetries (fun _ => false) 3 = ⟨false, 3, [2000, 2000]⟩ := by
  refine ⟨?_, ?_, ?_, by decide, by decide⟩
  · intro nav m
    simpa [gotoWithRetries] using gotoAux_attempts_le nav m m.toNat 0 0 []
  · intro nav m i0 h0 hm hnav hprev
    have h := gotoAux_first_success nav m i0 hm hnav m.toNat 0 0 [] (by omega) h0
      (fun j hj1 hj2 => hprev j hj1 hj2)
    simpa [gotoWithRetries] using h
  · intro nav m hm hfail
    have h := gotoAux_all_fail nav m hfail m.toNat 0 0 [] (by omega) le_rfl hm
    simpa [gotoWithRetries] using h

/-- C6 witness: a stub whose second attempt succeeds, under the default
budget of 3, returns after two attempts and one sleep. -/
theorem gotoWithRetries_contract_witness :
    gotoWithRetries (fun i => decide (1 ≤ i)) 3 = ⟨true, 2, [2000]⟩ := by
  have h := gotoWithRetries_contract.2.1 (fun i => decide (1 ≤ i)) 3 1 (by decide)
    (by decide) (by decide)
    (fun j hj1 hj2 => by simp only [decide_eq_false_iff_not]; omega)
  simpa using h

/-- C10: calling the retry helper with a zero or negative maximum returns
success without a single navigation attempt, a sleep, or a raise: the loop
body never runs. -/
theorem goto_nonpositive_retries :
    ∀ (nav : Int → Bool) (maxRetries : Int), maxRetries ≤ 0 →
      gotoWithRetries nav maxRetries = ⟨true, 0, []⟩ := by
  intro nav m hm
  have h0 : m.toNat = 0 := by omega
  rw [gotoWithRetries, h0]
  rfl

/-- C10 witness: with a navigation stub that always fails and a budget of
-5, the helper still returns success with zero attempts. -/
theorem goto_nonpositive_witness :
    gotoWithRetries (fun _ => false) (-5) = ⟨true, 0, []⟩ :=
  goto_nonpositive_retries _ _ (by decide)

/-- C3 counterexample: on the spec's own example "One. Two. Three." with a
forced external failure the summarizer does not return "One. Two.": the
text trims to 16 characters, below the 20-character threshold, so it is
returned unchanged; moreover even the fallback path joins the segments of
a split on the bare period, giving "One.  Two." with a double space. -/
theorem summarizeText_example_cex :
    summarizeText GeminiResult.failure "One. Two. Three." ≠ "One. Two." ∧
    summarizeText GeminiResult.failure "One. Two. Three." = "One. Two. Three." ∧
    fallbackSummary "One. Two. Three." = "One.  Two." := by
  refine ⟨by decide, by decide, by decide⟩

/-- C3 amended: for source text of trimmed length at least 20, whenever the
external summarization call fails (throw, missing output field, or output
empty after trimming), summarizeText returns the fallback built by
splitting on bare periods, joining the first two segments with period-plus-
space and appending a period; the spec example "One. Two. Three." is below
the length threshold and is returned unchanged, while a long input such as
"Aaaa. Bbbb. Cccc. Dddd. Eeee." yields "Aaaa.  Bbbb." (double space). -/
theorem summarizeText_failure_fallback :
    (∀ (text : String) (res : GeminiResult), 20 ≤ (trimChars text.data).length →
      externalFailed res = true → summarizeText res text = fallbackSummary text) ∧
    summarizeText GeminiResult.failure "One. Two. Three." = "One. Two. Three." ∧
    summarizeText GeminiResult.failure "Aaaa. Bbbb. Cccc. Dddd. Eeee." = "Aaaa.  Bbbb." := by
  refine ⟨?_, by decide, by decide⟩
  intro text res hlen hfail
  have hne : ¬(text = "" ∨ (trimChars text.data).length < 20) := by
    push_neg
    refine ⟨?_, by omega⟩
    intro h
    subst h
    simp [trimChars] at hlen
  rw [summarizeText.eq_def, if_neg hne]
  cases res with
  | failure => rfl
  | success output =>
    cases output with
    | none => rfl
    | some o =>
      have ht : trimChars o.data = [] := by simpa [externalFailed] using hfail
      simp [ht]

/-- C3 witness: the general fallback statement applied to a concrete long
text under a forced external failure. -/
theorem summarizeText_failure_witness :
    summarizeText GeminiResult.failure "Aaaa. Bbbb. Cccc. Dddd. Eeee." =
      fallbackSummary "Aaaa. Bbbb. Cccc. Dddd. Eeee." :=
  summarizeText_failure_fallback.1 _ _ (by decide) (by decide)

theorem mainLoop_processed (oracle : String → SiteOutcome) (scraped : List String) :
    ∀ (links : List String) (st st2 : RunState),
      mainLoop oracle scraped links st = Except.ok st2 →
      st2.processed = st.processed ++ links.filter (fun u => decide (u ∉ scraped)) := by
  intro links
  induction links with
  | nil =>
    intro st st2 h
    simp only [mainLoop, Except.ok.injEq] at h
    subst h
    simp
  | cons url rest ih =>
    intro st st2 h
    rw [mainLoop] at h
    by_cases hmem : url ∈ scraped
    · rw [if_pos hmem] at h
      rw [ih st st2 h]
      simp [hmem]
    · rw [if_neg hmem] at h
      cases hstep : siteStep url (oracle url) with
      | exit c =>
        rw [hstep] at h
        simp [applyStep] at h
      | record r =>
        rw [hstep] at h
        simp only [applyStep] at h
        rw [ih _ _ h]
        simp [hmem, List.append_assoc]
      | warn m =>
        rw [hstep] at h
        simp only [applyStep] at h
        rw [ih _ _ h]
        simp [hmem, List.append_assoc]

theorem mainLoop_persisted (oracle : String → SiteOutcome) (scraped : List String) :
    ∀ (links : List String) (st st2 : RunState),
      mainLoop oracle scraped links st = Except.ok st2 →
      st2.persisted = st.persisted ++
        (links.filter (fun u => decide (u ∉ scraped))).filterMap
          (fun u => stepRec (siteStep u (oracle u))) := by
  intro links
  induction links with
  | nil =>
    intro st st2 h
    simp only [mainLoop, Except.ok.injEq] at h
    subst h
    simp
  | cons url rest ih =>
    intro st st2 h
    rw [mainLoop] at h
    by_cases hmem : url ∈ scraped
    · rw [if_pos hmem] at h
      rw [ih st st2 h]
      simp [hmem]
    · rw [if_neg hmem] at h
      cases hstep : siteStep url (oracle url) with
      | exit c =>
        rw [hstep] at h
        simp [applyStep] at h
      | record r =>
        rw [hstep] at h
        simp only [applyStep] at h
        rw [ih _ _ h]
        simp [hmem, hstep, stepRec, List.append_assoc]
      | warn m =>
        rw [hstep] at h
        simp only [applyStep] at h
        rw [ih _ _ h]
        simp [hmem, hstep, stepRec]

theorem mainLoop_warnings (oracle : String → SiteOutcome) (scraped : List String) :
    ∀ (links : List String) (st st2 : RunState),
      mainLoop oracle scraped links st = Except.ok st2 →
      st2.warnings = st.warnings ++
        (links.filter (fun u => decide (u ∉ scraped))).filterMap
          (fun u =>
            match siteStep u (oracle u) with
            | StepKind.warn m => some m
            | _ => none) := by
  intro links
  induction links with
  | nil =>
    intro st st2 h
    simp only [mainLoop, Except.ok.injEq] at h
    subst h
    simp
  | cons url rest ih =>
    intro st st2 h
    rw [mainLoop] at h
    by_cases hmem : url ∈ scraped
    · rw [if_pos hmem] at h
      rw [ih st st2 h]
      simp [hmem]
    · rw [if_neg hmem] at h
      cases hstep : siteStep url (oracle url) with
      | exit c =>
        rw [hstep] at h
        simp [applyStep] at h
      | record r =>
        rw [hstep] at h
        simp only [applyStep] at h
        rw [ih _ _ h]
        simp [hmem, hstep]
      | warn m =>
        rw [hstep] at h
        simp only [applyStep] at h
        rw [ih _ _ h]
        simp [hmem, hstep, List.append_assoc]

theorem mainLoop_no_exit (oracle : String → SiteOutcome) (scraped : List String) :
    ∀ (links : List String) (st st2 : RunState),
      mainLoop oracle scraped links st = Except.ok st2 →
      ∀ u ∈ links, u ∉ scraped → stepIsExit (siteStep u (oracle u)) = false := by
  intro links
  induction links with
  | nil => intro st st2 h u hu; simp at hu
  | cons url rest ih =>
    intro st st2 h u hu hns
    rw [mainLoop] at h
    by_cases hmem : url ∈ scraped
    · rw [if_pos hmem] at h
      rcases List.mem_cons.mp hu with hq | hq
      · subst hq; exact absurd hmem hns
      · exact ih st st2 h u hq hns
    · rw [if_neg hmem] at h
      cases hstep : siteStep url (oracle url) with
      | exit c =>
        rw [hstep] at h
        simp [applyStep] at h
      | record r =>
        rw [hstep] at h
        simp only [applyStep] at h
        rcases List.mem_cons.mp hu with hq | hq
        · subst hq; rw [hstep]; rfl
        · exact ih _ st2 h u hq hns
      | warn m =>
        rw [hstep] at h
        simp only [applyStep] at h
        rcases List.mem_cons.mp hu with hq | hq
        · subst hq; rw [hstep]; rfl
        · exact ih _ st2 h u hq hns

theorem mainLoop_complete (oracle : String → SiteOutcome) (scraped : List String) :
    ∀ (links : List String) (st : RunState),
      (∀ u ∈ links, u ∉ scraped → stepIsExit (siteStep u (oracle u)) = false) →
      ∃ st2, mainLoop oracle scraped links st = Except.ok st2 := by
  intro links
  induction links with
  | nil => intro st h; exact ⟨st, rfl⟩
  | cons url rest ih =>
    intro st h
    rw [mainLoop]
    by_cases hmem : url ∈ scraped
    · rw [if_pos hmem]
      exact ih st (fun u hu hns => h u (List.mem_cons_of_mem _ hu) hns)
    · rw [if_neg hmem]
      cases hstep : siteStep url (oracle url) with
      | exit c =>
        have hx := h url (List.mem_cons_self url rest) hmem
        rw [hstep] at hx
        simp [stepIsExit] at hx
      | record r =>
        simp only [applyStep]
        exact ih _ (fun u hu hns => h u (List.mem_cons_of_mem _ hu) hns)
      | warn m =>
        simp only [applyStep]
        exact ih _ (fun u hu hns => h u (List.mem_cons_of_mem _ hu) hns)

theorem stepRec_link (url : String) (oc : SiteOutcome) (r : EntityRecord)
    (h : stepRec (siteStep url oc) = some r) : r.link = url := by
  cases oc with
  | throwDuring m => simp [siteStep, stepRec] at h
  | data sd gem =>
    simp only [siteStep] at h
    by_cases hmt : sd.title = "" ∨ sd.descriptionFull = ""
    · rw [if_pos hmt] at h
      simp [stepRec] at h
    · rw [if_neg hmt] at h
      cases hdms : dmsToDD sd.coordsText with
      | error e =>
        rw [hdms] at h
        simp [stepRec] at h
      | ok p =>
        obtain ⟨lat, long⟩ := p
        rw [hdms] at h
        cases hsum : summarizeTextStrict gem sd.descriptionFull with
        | error c =>
          rw [hsum] at h
          simp [stepRec] at h
        | ok summary =>
          rw [hsum] at h
          simp only [stepRec, Option.some.injEq] at h
          rw [← h]

/-- C4: the processed work set of a completed run is exactly the discovered
link list minus the exclusion set read from the output store (the trimmed
last column of each non-header line); for a store whose rows end in A and B
and discovered links A, B, C, only C is processed; and a missing or empty
store yields an empty exclusion set with the run proceeding normally. -/
theorem resume_filter_spec :
    (∀ (oracle : String → SiteOutcome) (store : Option String) (links : List String)
      (st2 : RunState),
      mainLoop oracle (scrapedLinksOf store) links initState = Except.ok st2 →
      st2.processed = links.filter (fun u => decide (u ∉ scrapedLinksOf store))) ∧
    scrapedLinksOf (some "H\nx,A\ny,B") = ["A", "B"] ∧
    List.filter (fun u => decide (u ∉ scrapedLinksOf (some "H\nx,A\ny,B")))
      ["A", "B", "C"] = ["C"] ∧
    scrapedLinksOf none = [] ∧
    scrapedLinksOf (some "") = [] ∧
    (∀ (oracle : String → SiteOutcome) (links : List String),
      (∀ u ∈ links, stepIsExit (siteStep u (oracle u)) = false) →
      ∃ st2, mainLoop oracle (scrapedLinksOf none) links initState = Except.ok st2) := by
  refine ⟨?_, by decide, by decide, by decide, by decide, ?_⟩
  · intro oracle store links st2 h
    simpa [initState] using
      mainLoop_processed oracle (scrapedLinksOf store) links initState st2 h
  · intro oracle links h
    exact mainLoop_complete oracle (scrapedLinksOf none) links initState
      (fun u hu _ => h u hu)

/-- C4 witness: the filter statement applied to the concrete store with
rows ending in A and B and the discovered links A, B, C; and a run against
a missing store completing on a concrete link list. -/
theorem resume_filter_witness :
    (⟨["C"], [demoRecord "C"], []⟩ : RunState).processed =
      List.filter (fun u => decide (u ∉ scrapedLinksOf (some "H\nx,A\ny,B")))
        ["A", "B", "C"] ∧
    ∃ st2, mainLoop demoOracle (scrapedLinksOf none) ["A"] initState = Except.ok st2 :=
  ⟨resume_filter_spec.1 demoOracle (some "H\nx,A\ny,B") ["A", "B", "C"] _ (by decide),
   resume_filter_spec.2.2.2.2.2 demoOracle ["A"] (by decide)⟩

/-- C5: an exception raised while navigating to or extracting one address
is caught by the per-site catch and recorded as one warning, after which
the loop continues on the remaining addresses with no other state change;
on the concrete run over three addresses where only the second throws,
exactly the first and third records are persisted and one warning is
logged for the second. -/
theorem per_entity_isolation :
    (∀ (oracle : String → SiteOutcome) (scraped : List String) (url msg : String)
      (rest : List String) (st : RunState),
      url ∉ scraped → oracle url = SiteOutcome.throwDuring msg →
      mainLoop oracle scraped (url :: rest) st =
        mainLoop oracle scraped rest
          { st with processed := st.processed ++ [url],
                    warnings := st.warnings ++ [warnMsg url msg] }) ∧
    mainLoop demoOracle5 [] ["u1", "u2", "u3"] initState =
      Except.ok ⟨["u1", "u2", "u3"], [demoRecord "u1", demoRecord "u3"],
        [warnMsg "u2" "boom"]⟩ := by
  refine ⟨?_, by decide⟩
  intro oracle scraped url msg rest st hns horacle
  rw [mainLoop, if_neg hns, horacle]
  rfl

/-- C5 witness: the throw-isolation equation applied at a concrete oracle,
address, and state. -/
theorem per_entity_isolation_witness :
    mainLoop (fun _ => SiteOutcome.throwDuring "boom") [] ["x"] initState =
      mainLoop (fun _ => SiteOutcome.throwDuring "boom") [] []
        { initState with processed := initState.processed ++ ["x"],
                         warnings := initState.warnings ++ [warnMsg "x" "boom"] } :=
  per_entity_isolation.1 _ [] "x" "boom" [] initState (by decide) rfl

/-- C8: evaluation at the failing input: with an empty exclusion set and
the discovered link list [A, A] (a duplicate from the discovery phase),
the core main loop of src/unnamed/part_001 extracts and persists the same
sourceLink twice within a single run, because the in-memory scraped set is
only read at startup and the discovered list is never deduplicated. -/
theorem duplicate_links_persisted_twice :
    mainLoop demoOracle [] ["A", "A"] initState =
      Except.ok ⟨["A", "A"], [demoRecord "A", demoRecord "A"], []⟩ ∧
    Except.map (fun st => st.persisted.map EntityRecord.link)
      (mainLoop demoOracle [] ["A", "A"] initState) = Except.ok ["A", "A"] := by
  exact ⟨by decide, by decide⟩

theorem splitOnChar_no_sep (sep : Char) (cs : List Char) (h : sep ∉ cs) :
    splitOnChar sep cs = [cs] :=
  splitOnPred_no_sep _ cs (fun c hc => by
    simp only [beq_eq_false_iff_ne]
    intro he
    exact h (he ▸ hc))

theorem writeRecords_single (s : List Char) (r : EntityRecord) :
    writeRecords (some s) [r] = s ++ '\n' :: csvRow r := by
  simp [writeRecords]

theorem writeRecords_none_single (r : EntityRecord) :
    writeRecords none [r] = headerRow ++ '\n' :: csvRow r := by
  simp [writeRecords]

theorem scrapedLinksChars_append_row (s row : List Char) (hrow : '\n' ∉ row) :
    scrapedLinksChars (s ++ '\n' :: row) = addLine (scrapedLinksChars s) row := by
  unfold scrapedLinksChars
  rw [splitOnChar_append, splitOnChar_no_sep '\n' row hrow]
  cases hl : splitOnChar '\n' s with
  | nil => exact absurd hl (splitOnChar_ne_nil '\n' s)
  | cons l0 ls => simp [List.foldl_append]

theorem scrapedLinksChars_header : scrapedLinksChars headerRow = [] := by decide

theorem mem_setAdd_self (acc : List String) (x : String) : x ∈ setAdd acc x := by
  unfold setAdd
  by_cases h : x ∈ acc <;> simp [h]

theorem mem_setAdd_mono (acc : List String) (x y : String) (h : y ∈ acc) :
    y ∈ setAdd acc x := by
  unfold setAdd
  by_cases hx : x ∈ acc <;> simp [hx, h]

theorem mem_addLine_mono (acc : List String) (line : List Char) (y : String)
    (h : y ∈ acc) : y ∈ addLine acc line := by
  unfold addLine
  cases (splitOnChar ',' line).getLast? with
  | none => exact h
  | some lastCol =>
    by_cases hz : String.mk (trimChars lastCol) = "" <;>
      simp [hz, h, mem_setAdd_mono]

theorem mem_addLine_of (acc : List String) (line : List Char) (lx : List Char)
    (h1 : (splitOnChar ',' line).getLast? = some lx)
    (h2 : String.mk (trimChars lx) ≠ "") :
    String.mk (trimChars lx) ∈ addLine acc line := by
  unfold addLine
  rw [h1]
  simp [h2, mem_setAdd_self]

theorem getLast?_splitOnChar_last (pre link : List Char) (h : ',' ∉ link) :
    (splitOnChar ',' (pre ++ [','] ++ link)).getLast? = some link := by
  rw [List.append_assoc, List.singleton_append, splitOnChar_append,
    splitOnChar_no_sep ',' link h]
  simp [List.getLast?_append]

theorem lastCol_csvRow (r : EntityRecord) (h : ',' ∉ r.link.data) :
    (splitOnChar ',' (csvRow r)).getLast? = some r.link.data := by
  unfold csvRow
  exact getLast?_splitOnChar_last _ _ h

theorem scraped_storeAfter_mono :
    ∀ (recs : List EntityRecord) (store : Option (List Char)) (x : String),
      (∀ r ∈ recs, '\n' ∉ csvRow r) →
      x ∈ scrapedLinksOpt store → x ∈ scrapedLinksOpt (storeAfter store recs) := by
  intro recs
  induction recs with
  | nil => intro store x _ hx; exact hx
  | cons r rs ih =>
    intro store x hnl hx
    have hstep : storeAfter store (r :: rs) =
        storeAfter (some (writeRecords store [r])) rs := rfl
    rw [hstep]
    apply ih (some (writeRecords store [r])) x (fun r2 h2 => hnl r2 (by simp [h2]))
    cases store with
    | none => simp [scrapedLinksOpt] at hx
    | some s =>
      rw [writeRecords_single]
      simpa [scrapedLinksOpt, scrapedLinksChars_append_row s (csvRow r)
        (hnl r (by simp))] using mem_addLine_mono _ (csvRow r) x hx

theorem link_mem_scraped_storeAfter :
    ∀ (recs : List EntityRecord) (store : Option (List Char)) (r : EntityRecord),
      r ∈ recs → goodLink r → (∀ r2 ∈ recs, '\n' ∉ csvRow r2) →
      r.link ∈ scrapedLinksOpt (storeAfter store recs) := by
  intro recs
  induction recs with
  | nil => intro store r hr; simp at hr
  | cons r0 rs ih =>
    intro store r hr hgood hnl
    have hstep : storeAfter store (r0 :: rs) =
        storeAfter (some (writeRecords store [r0])) rs := rfl
    rw [hstep]
    rcases List.mem_cons.mp hr with hq | hq
    · subst hq
      apply scraped_storeAfter_mono rs (some (writeRecords store [r])) r.link
        (fun r2 h2 => hnl r2 (by simp [h2]))
      obtain ⟨hne, hnc, hrow, htrim⟩ := hgood
      have hlast := lastCol_csvRow r hnc
      have hmkne : String.mk (trimChars r.link.data) ≠ "" := by
        rw [htrim]
        intro hcon
        exact hne hcon
      cases store with
      | none =>
        have hmem := mem_addLine_of (scrapedLinksChars headerRow) (csvRow r)
          r.link.data hlast hmkne
        rw [htrim] at hmem
        rw [writeRecords_none_single]
        simpa [scrapedLinksOpt, scrapedLinksChars_append_row headerRow (csvRow r) hrow]
          using hmem
      | some s =>
        have hmem := mem_addLine_of (scrapedLinksChars s) (csvRow r)
          r.link.data hlast hmkne
        rw [htrim] at hmem
        rw [writeRecords_single]
        simpa [scrapedLinksOpt, scrapedLinksChars_append_row s (csvRow r) hrow] using hmem
    · exact ih (some (writeRecords store [r0])) r hq hgood
        (fun r2 h2 => hnl r2 (by simp [h2]))

theorem writer_foldl_some :
    ∀ (batches : List (List EntityRecord)) (s0 : List Char),
      batches.foldl (fun s recs => some (writeRecords s recs)) (some s0) =
        some (s0 ++ (batches.flatten.map (fun r => '\n' :: csvRow r)).flatten) := by
  intro batches
  induction batches with
  | nil => intro s0; simp
  | cons b bs ih =>
    intro s0
    rw [List.foldl_cons]
    have hb : writeRecords (some s0) b =
        s0 ++ (b.map (fun r => '\n' :: csvRow r)).flatten := rfl
    rw [hb, ih]
    simp [List.append_assoc]

theorem splitOnChar_rows :
    ∀ (L : List EntityRecord) (s : List Char), '\n' ∉ s →
      (∀ r ∈ L, '\n' ∉ csvRow r) →
      splitOnChar '\n' (s ++ (L.map (fun r => '\n' :: csvRow r)).flatten) =
        s :: L.map csvRow := by
  intro L
  induction L with
  | nil => intro s hs _; simpa using splitOnChar_no_sep '\n' s hs
  | cons r L2 ih =>
    intro s hs hrows
    have hshape : s ++ ((r :: L2).map (fun x => '\n' :: csvRow x)).flatten =
        s ++ '\n' :: (csvRow r ++ (L2.map (fun x => '\n' :: csvRow x)).flatten) := by
      simp
    rw [hshape, splitOnChar_append, splitOnChar_no_sep '\n' s hs,
      ih (csvRow r) (hrows r (by simp)) (fun x hx => hrows x (by simp [hx]))]
    simp

/-- C9: starting from an absent output store, any non-empty sequence of
incremental writes produces a store whose lines are exactly the fixed
header row followed by one serialized row per persisted record, in order:
the header is created by the first write and never rewritten. -/
theorem incremental_writer_header :
    ∀ (batches : List (List EntityRecord)),
      (∀ r ∈ batches.flatten, '\n' ∉ csvRow r) →
      ∀ s, runWriter batches = some s →
        splitOnChar '\n' s = headerRow :: batches.flatten.map csvRow := by
  intro batches hrows s hs
  cases batches with
  | nil => simp [runWriter] at hs
  | cons b bs =>
    rw [runWriter, List.foldl_cons] at hs
    have hb : writeRecords none b =
        headerRow ++ (b.map (fun r => '\n' :: csvRow r)).flatten := rfl
    rw [hb, writer_foldl_some bs] at hs
    have hsval : s = headerRow ++
        ((b ++ bs.flatten).map (fun r => '\n' :: csvRow r)).flatten := by
      have := Option.some.inj hs
      rw [← this]
      simp [List.append_assoc]
    rw [hsval, splitOnChar_rows (b ++ bs.flatten) headerRow (by decide)
      (fun r hr => hrows r (by simpa using hr))]
    simp

/-- C9 witness: two successive single-record writes starting from an
absent store give exactly one header line and two record lines. -/
theorem incremental_writer_witness :
    ∃ s, runWriter [[demoRecord "A"], [demoRecord "B"]] = some s ∧
      splitOnChar '\n' s =
        headerRow :: [csvRow (demoRecord "A"), csvRow (demoRecord "B")] := by
  refine ⟨_, rfl, ?_⟩
  have h := incremental_writer_header [[demoRecord "A"], [demoRecord "B"]]
    (by decide) _ rfl
  simpa using h

/-- C7: after a completed first run over a retained output store, every
persisted record's link is in the exclusion set that a second run reads
back, and the second run over the same links with the same external
behaviour completes while persisting zero additional records. -/
theorem resume_idempotent :
    ∀ (oracle : String → SiteOutcome) (links : List String) (store : Option (List Char))
      (st1 : RunState),
      mainLoop oracle (scrapedLinksOpt store) links initState = Except.ok st1 →
      (∀ r ∈ st1.persisted, goodLink r) →
      (∀ r ∈ st1.persisted, r.link ∈ scrapedLinksOpt (storeAfter store st1.persisted)) ∧
      ∃ st2, mainLoop oracle (scrapedLinksOpt (storeAfter store st1.persisted)) links
          initState = Except.ok st2 ∧ st2.persisted = [] := by
  intro oracle links store st1 h1 hgood
  have hrowsNL : ∀ r ∈ st1.persisted, '\n' ∉ csvRow r := fun r hr => (hgood r hr).2.2.1
  have hmemlinks : ∀ r ∈ st1.persisted,
      r.link ∈ scrapedLinksOpt (storeAfter store st1.persisted) := fun r hr =>
    link_mem_scraped_storeAfter st1.persisted store r hr (hgood r hr) hrowsNL
  refine ⟨hmemlinks, ?_⟩
  have hsub : ∀ x, x ∈ scrapedLinksOpt store →
      x ∈ scrapedLinksOpt (storeAfter store st1.persisted) := fun x hx =>
    scraped_storeAfter_mono _ _ _ hrowsNL hx
  have hnoexit2 : ∀ u ∈ links, u ∉ scrapedLinksOpt (storeAfter store st1.persisted) →
      stepIsExit (siteStep u (oracle u)) = false := by
    intro u hu hns2
    exact mainLoop_no_exit oracle (scrapedLinksOpt store) links initState st1 h1 u hu
      (fun hmem => hns2 (hsub u hmem))
  obtain ⟨st2, h2⟩ :=
    mainLoop_complete oracle (scrapedLinksOpt (storeAfter store st1.persisted)) links
      initState hnoexit2
  refine ⟨st2, h2, ?_⟩
  have hp2 := mainLoop_persisted oracle (scrapedLinksOpt (storeAfter store st1.persisted))
    links initState st2 h2
  rw [hp2]
  simp only [initState, List.nil_append]
  rw [List.filterMap_eq_nil_iff]
  intro u hu
  have hu2 := List.mem_filter.mp hu
  have hns2 : u ∉ scrapedLinksOpt (storeAfter store st1.persisted) := by
    simpa using hu2.2
  cases hsr : stepRec (siteStep u (oracle u)) with
  | none => rfl
  | some r =>
    exfalso
    have hns1 : u ∉ scrapedLinksOpt store := fun hmem => hns2 (hsub u hmem)
    have hp1 := mainLoop_persisted oracle (scrapedLinksOpt store) links initState st1 h1
    have hrmem : r ∈ st1.persisted := by
      rw [hp1]
      simp only [initState, List.nil_append]
      exact List.mem_filterMap.mpr
        ⟨u, List.mem_filter.mpr ⟨hu2.1, by simpa using hns1⟩, hsr⟩
    have hlink : r.link = u := stepRec_link u (oracle u) r hsr
    exact hns2 (hlink ▸ hmemlinks r hrmem)

/-- C7 witness: a concrete first run over link A starting from an absent
store, after which the second run completes and persists nothing. -/
theorem resume_idempotent_witness :
    (∀ r ∈ [demoRecord "A"],
      r.link ∈ scrapedLinksOpt (storeAfter none
        (⟨["A"], [demoRecord "A"], []⟩ : RunState).persisted)) ∧
    ∃ st2, mainLoop demoOracle
        (scrapedLinksOpt (storeAfter none
          (⟨["A"], [demoRecord "A"], []⟩ : RunState).persisted))
        ["A"] initState = Except.ok st2 ∧ st2.persisted = [] :=
  resume_idempotent demoOracle ["A"] none ⟨["A"], [demoRecord "A"], []⟩
    (by decide)
    (fun r hr => by
      have hra : r = demoRecord "A" := by simpa using hr
      subst hra
      exact ⟨by decide, by decide, by decide, by decide⟩)

theorem dms_general :
    ∀ (dms : String) (t0r t1 t2 t3r t4 t5 : List Char) (hLat hLong : Char)
      (dLat mLat sLat dLong mLong sLong : ℚ),
      dms ≠ "" →
      splitOnChar ' ' dms.data = [hLat :: t0r, t1, t2, hLong :: t3r, t4, t5] →
      (hLat = 'N' ∨ hLat = 'S') →
      (hLong = 'E' ∨ hLong = 'W') →
      (∀ c ∈ t0r, isNS c = false) →
      (∀ c ∈ t3r, isEW c = false) →
      parseFloatJS (some t0r) = some dLat →
      parseFloatJS (some t1) = some mLat →
      parseFloatJS (some t2) = some sLat →
      parseFloatJS (some t3r) = some dLong →
      parseFloatJS (some t4) = some mLong →
      parseFloatJS (some t5) = some sLong →
      dmsToDD dms = Except.ok
        (some ((if hLat = 'S' then -1 else 1) * (dLat + mLat / 60 + sLat / 3600)),
         some ((if hLong = 'W' then -1 else 1) * (dLong + mLong / 60 + sLong / 3600))) := by
  intro dms t0r t1 t2 t3r t4 t5 hLat hLong dLat mLat sLat dLong mLong sLong
    hne hsplit hhlat hhlong hns hew hp0 hp1 hp2 hp3 hp4 hp5
  have hdata : ¬(dms.data = []) := fun h => hne (string_empty_of_data_nil h)
  have hNS : isNS hLat = true := by
    rcases hhlat with h | h <;> simp [h, isNS]
  have hEW : isEW hLong = true := by
    rcases hhlong with h | h <;> simp [h, isEW]
  have hsplitNS : splitOnPred isNS (hLat :: t0r) = [[], t0r] := by
    rw [splitOnPred, splitOnPred_no_sep isNS t0r hns]
    simp [hNS]
  have hsplitEW : splitOnPred isEW (hLong :: t3r) = [[], t3r] := by
    rw [splitOnPred, splitOnPred_no_sep isEW t3r hew]
    simp [hEW]
  simp only [dmsToDD, dmsCore, if_neg hdata, hsplit, List.take_succ_cons, List.take_zero,
    List.drop_succ_cons, List.drop_zero, List.getElem?_cons_zero, List.getElem?_cons_succ,
    hsplitNS, hsplitEW, List.head?_cons, toDD, hp0, hp1, hp2, hp3, hp4, hp5, jsAdd,
    jsDivConst, jsNeg, Option.map_some', Option.some.injEq]
  rcases hhlat with h | h <;> rcases hhlong with h2 | h2 <;> subst h <;> subst h2 <;>
    simp +decide only [if_pos, if_neg, one_mul, neg_one_mul]

/-- C1: for every DMS input of six space-separated tokens whose first token
is the latitude degree prefixed with N or S and whose fourth token is the
longitude degree prefixed with E or W (degree digits free of hemisphere
letters, minutes and seconds parsing as numbers), dmsToDD returns
degree + minute/60 + second/3600 per axis, negated exactly for S and W;
in particular "N34 23 47.1 E64 30 57.2" lands within 1/1000 of
(34.3964, 64.5159), and "S10 0 0 W20 0 0" gives exactly (-10, -20). -/
theorem dmsToDD_wellformed_spec :
    (∀ (dms : String) (t0r t1 t2 t3r t4 t5 : List Char) (hLat hLong : Char)
      (dLat mLat sLat dLong mLong sLong : ℚ),
      dms ≠ "" →
      splitOnChar ' ' dms.data = [hLat :: t0r, t1, t2, hLong :: t3r, t4, t5] →
      (hLat = 'N' ∨ hLat = 'S') →
      (hLong = 'E' ∨ hLong = 'W') →
      (∀ c ∈ t0r, isNS c = false) →
      (∀ c ∈ t3r, isEW c = false) →
      parseFloatJS (some t0r) = some dLat →
      parseFloatJS (some t1) = some mLat →
      parseFloatJS (some t2) = some sLat →
      parseFloatJS (some t3r) = some dLong →
      parseFloatJS (some t4) = some mLong →
      parseFloatJS (some t5) = some sLong →
      dmsToDD dms = Except.ok
        (some ((if hLat = 'S' then -1 else 1) * (dLat + mLat / 60 + sLat / 3600)),
         some ((if hLong = 'W' then -1 else 1) * (dLong + mLong / 60 + sLong / 3600)))) ∧
    (∃ la lo : ℚ, dmsToDD "N34 23 47.1 E64 30 57.2" = Except.ok (some la, some lo) ∧
      |la - 34.3964| ≤ 1 / 1000 ∧ |lo - 64.5159| ≤ 1 / 1000) ∧
    dmsToDD "S10 0 0 W20 0 0" = Except.ok (some (-10), some (-20)) := by
  have hp34 : parseFloatJS (some ['3', '4']) = some 34 := by
    have h : parseFloatJS (some ['3', '4']) = some ((digitsVal ['3', '4'] : ℚ)) := rfl
    rw [h, show digitsVal ['3', '4'] = 34 from by decide]
    norm_num
  have hp23 : parseFloatJS (some ['2', '3']) = some 23 := by
    have h : parseFloatJS (some ['2', '3']) = some ((digitsVal ['2', '3'] : ℚ)) := rfl
    rw [h, show digitsVal ['2', '3'] = 23 from by decide]
    norm_num
  have hp471 : parseFloatJS (some ['4', '7', '.', '1']) = some (471 / 10) := by
    have h : parseFloatJS (some ['4', '7', '.', '1']) =
        some ((digitsVal ['4', '7'] : ℚ) + fracVal ['1']) := rfl
    rw [h, show digitsVal ['4', '7'] = 47 from by decide]
    norm_num [fracVal, show digitsVal ['1'] = 1 from by decide]
  have hp64 : parseFloatJS (some ['6', '4']) = some 64 := by
    have h : parseFloatJS (some ['6', '4']) = some ((digitsVal ['6', '4'] : ℚ)) := rfl
    rw [h, show digitsVal ['6', '4'] = 64 from by decide]
    norm_num
  have hp30 : parseFloatJS (some ['3', '0']) = some 30 := by
    have h : parseFloatJS (some ['3', '0']) = some ((digitsVal ['3', '0'] : ℚ)) := rfl
    rw [h, show digitsVal ['3', '0'] = 30 from by decide]
    norm_num
  have hp572 : parseFloatJS (some ['5', '7', '.', '2']) = some (286 / 5) := by
    have h : parseFloatJS (some ['5', '7', '.', '2']) =
        some ((digitsVal ['5', '7'] : ℚ) + fracVal ['2']) := rfl
    rw [h, show digitsVal ['5', '7'] = 57 from by decide]
    norm_num [fracVal, show digitsVal ['2'] = 2 from by decide]
  have hp10 : parseFloatJS (some ['1', '0']) = some 10 := by
    have h : parseFloatJS (some ['1', '0']) = some ((digitsVal ['1', '0'] : ℚ)) := rfl
    rw [h, show digitsVal ['1', '0'] = 10 from by decide]
    norm_num
  have hp20 : parseFloatJS (some ['2', '0']) = some 20 := by
    have h : parseFloatJS (some ['2', '0']) = some ((digitsVal ['2', '0'] : ℚ)) := rfl
    rw [h, show digitsVal ['2', '0'] = 20 from by decide]
    norm_num
  have hp0q : parseFloatJS (some ['0']) = some 0 := by
    have h : parseFloatJS (some ['0']) = some ((digitsVal ['0'] : ℚ)) := rfl
    rw [h, show digitsVal ['0'] = 0 from by decide]
    norm_num
  refine ⟨dms_general, ?_, ?_⟩
  · have h := dms_general "N34 23 47.1 E64 30 57.2" ['3', '4'] ['2', '3']
      ['4', '7', '.', '1'] ['6', '4'] ['3', '0'] ['5', '7', '.', '2'] 'N' 'E'
      34 23 (471 / 10) 64 30 (286 / 5) (by decide) (by decide) (Or.inl rfl) (Or.inl rfl)
      (by decide) (by decide) hp34 hp23 hp471 hp64 hp30 hp572
    refine ⟨34 + 23 / 60 + 471 / 10 / 3600, 64 + 30 / 60 + 286 / 5 / 3600, ?_, ?_, ?_⟩
    · rw [h]
      simp +decide only [if_pos, if_neg, one_mul, neg_one_mul]
    · rw [abs_le]
      constructor <;> norm_num
    · rw [abs_le]
      constructor <;> norm_num
  · have h := dms_general "S10 0 0 W20 0 0" ['1', '0'] ['0'] ['0'] ['2', '0'] ['0'] ['0']
      'S' 'W' 10 0 0 20 0 0 (by decide) (by decide) (Or.inr rfl) (Or.inr rfl)
      (by decide) (by decide) hp10 hp0q hp0q hp20 hp0q hp0q
    rw [h]
    norm_num

/-- C1 witness: the general conversion statement applied to the concrete
well-formed input "N1 2 3 E4 5 6". -/
theorem dmsToDD_wellformed_witness :
    dmsToDD "N1 2 3 E4 5 6" = Except.ok
      (some ((if ('N' : Char) = 'S' then -1 else 1) * (1 + 2 / 60 + 3 / 3600)),
       some ((if ('E' : Char) = 'W' then -1 else 1) * (4 + 5 / 60 + 6 / 3600))) := by
  have hp1 : parseFloatJS (some ['1']) = some 1 := by
    have h : parseFloatJS (some ['1']) = some ((digitsVal ['1'] : ℚ)) := rfl
    rw [h, show digitsVal ['1'] = 1 from by decide]
    norm_num
  have hp2 : parseFloatJS (some ['2']) = some 2 := by
    have h : parseFloatJS (some ['2']) = some ((digitsVal ['2'] : ℚ)) := rfl
    rw [h, show digitsVal ['2'] = 2 from by decide]
    norm_num
  have hp3 : parseFloatJS (some ['3']) = some 3 := by
    have h : parseFloatJS (some ['3']) = some ((digitsVal ['3'] : ℚ)) := rfl
    rw [h, show digitsVal ['3'] = 3 from by decide]
    norm_num
  have hp4 : parseFloatJS (some ['4']) = some 4 := by
    have h : parseFloatJS (some ['4']) = some ((digitsVal ['4'] : ℚ)) := rfl
    rw [h, show digitsVal ['4'] = 4 from by decide]
    norm_num
  have hp5 : parseFloatJS (some ['5']) = some 5 := by
    have h : parseFloatJS (some ['5']) = some ((digitsVal ['5'] : ℚ)) := rfl
    rw [h, show digitsVal ['5'] = 5 from by decide]
    norm_num
  have hp6 : parseFloatJS (some ['6']) = some 6 := by
    have h : parseFloatJS (some ['6']) = some ((digitsVal ['6'] : ℚ)) := rfl
    rw [h, show digitsVal ['6'] = 6 from by decide]
    norm_num
  exact dmsToDD_wellformed_spec.1 "N1 2 3 E4 5 6" ['1'] ['2'] ['3'] ['4'] ['5'] ['6']
    'N' 'E' 1 2 3 4 5 6 (by decide) (by decide) (Or.inl rfl) (Or.inl rfl)
    (by decide) (by decide) hp1 hp2 hp3 hp4 hp5 hp6
